import Mathlib

/-!
Verification of the CFD working-page instruction engine (enwiki/cfdw.py).

The embedding models the engine over an abstract markup node model: the
markup tokenizer is an external collaborator, so a parsed line is a list
of nodes (plain text, wikilinks, templates), exactly the shapes the
Python code dispatches on.  Remote-wiki observations (page existence,
redirect status, emptiness after the settle wait, backlinks, talk-page
state) are supplied by a `World` record of query functions, and the
side-effecting executors are modelled as functions returning the list of
remote actions (events) they perform, in order.
-/

set_option maxRecDepth 4000

namespace Cfdw

/-- A category, identified by its name without the `Category:` namespace. -/
structure Cat where
  name : String
deriving DecidableEq, Repr, Inhabited

/-- Full page title of a category. -/
def Cat.title (c : Cat) : String := "Category:" ++ c.name

/-- Link form with a leading colon (`title(as_link=True, textlink=True)`). -/
def Cat.textLink (c : Cat) : String := "[[:Category:" ++ c.name ++ "]]"

/-- Plain link form (`aslink()`). -/
def Cat.asLink (c : Cat) : String := "[[Category:" ++ c.name ++ "]]"

/-- The four working-page modes (CFDWPage.MODES). -/
inductive Mode where
  | move | merge | empty | retain
deriving DecidableEq, Repr, Inhabited

/-- A markup node of a parsed line or page: plain text, a wikilink
`[[title|anchor]]`, or a template `{{name|k=v|...}}`.  This is the node
alphabet the Python code dispatches on (`Text`, `Wikilink`, `Template`). -/
inductive LNode where
  | text (s : String)
  | wikilink (title : String) (anchor : Option String)
  | template (name : String) (params : List (String × String))
deriving DecidableEq, Repr, Inhabited

/-- Decidable equality for Except results, used to evaluate parser
outputs in witnesses. -/
instance {e a : Type} [DecidableEq e] [DecidableEq a] :
    DecidableEq (Except e a) := fun x y =>
  match x, y with
  | .ok v, .ok w =>
    if h : v = w then .isTrue (by rw [h]) else .isFalse (fun hh => h (Except.ok.inj hh))
  | .error v, .error w =>
    if h : v = w then .isTrue (by rw [h]) else .isFalse (fun hh => h (Except.error.inj hh))
  | .ok _, .error _ => .isFalse (fun hh => Except.noConfusion hh)
  | .error _, .ok _ => .isFalse (fun hh => Except.noConfusion hh)

/-- Whether the first list is a prefix of the second (character lists).
All string helpers below are written over character lists by structural
recursion. -/
def listPre : List Char → List Char → Bool
  | [], _ => true
  | _ :: _, [] => false
  | p :: ps, c :: cs => (p == c) && listPre ps cs

/-- Whether `sub` occurs somewhere in the list (the Python `in` test). -/
def occursL (sub : List Char) : List Char → Bool
  | [] => listPre sub []
  | c :: cs => listPre sub (c :: cs) || occursL sub cs

/-- Substring test: `sub in s`. -/
def containsSub (s sub : String) : Bool := occursL sub.toList s.toList

/-- startswith on strings. -/
def sStartsWith (s pre : String) : Bool := listPre pre.toList s.toList

/-- endswith on strings. -/
def sEndsWith (s suf : String) : Bool :=
  listPre suf.toList.reverse s.toList.reverse

/-- strip: drop surrounding whitespace. -/
def trimL (l : List Char) : List Char :=
  ((l.dropWhile Char.isWhitespace).reverse.dropWhile Char.isWhitespace).reverse

/-- strip on strings. -/
def sTrim (s : String) : String := String.mk (trimL s.toList)

/-- lower on strings. -/
def sToLower (s : String) : String := String.mk (s.toList.map Char.toLower)

/-- Split a character list at every occurrence of a separator character
(str.split with a one-character separator). -/
def splitOnCharL (sep : Char) : List Char → List (List Char)
  | [] => [[]]
  | c :: cs =>
    if c == sep then [] :: splitOnCharL sep cs
    else
      match splitOnCharL sep cs with
      | [] => [[c]]
      | h :: t => (c :: h) :: t

/-- Split a string at a separator character. -/
def splitOnChar (sep : Char) (s : String) : List String :=
  (splitOnCharL sep s.toList).map String.mk

/-- Join strings with a separator. -/
def joinSep (sep : String) : List String → String
  | [] => ""
  | [x] => x
  | x :: xs => x ++ sep ++ joinSep sep xs

/-- Title normalization done by the page constructor: strip surrounding
whitespace and one leading colon. -/
def normBase (t : String) : String :=
  let t := sTrim t
  if sStartsWith t ":" then sTrim (t.drop 1) else t

/-- Normalized title without its section part. -/
def normNoSec (t : String) : String := (splitOnChar '#' (normBase t)).headD ""

/-- The section part of a title (after the first `#`), empty if none. -/
def titleSection (t : String) : String :=
  match splitOnChar '#' t with
  | [] => ""
  | [_] => ""
  | _ :: rest => joinSep "#" rest

/-- The part of a string after its last `/` (rpartition), the whole string
when it has no `/`. -/
def afterLastSlash (s : String) : String := (splitOnChar '/' s).getLastD s

/-- A word character of the `\w` regex class (ASCII). -/
def isWordChar (c : Char) : Bool := c.isAlphanum || c == '_'

/-- Match a lowercase pattern case-insensitively at the head of the input;
return the consumed original characters and the rest. -/
def matchLit : List Char → List Char → Option (List Char × List Char)
  | [], cs => some ([], cs)
  | _ :: _, [] => none
  | p :: ps, c :: cs =>
    if c.toLower == p then (matchLit ps cs).map (fun r => (c :: r.1, r.2)) else none

/-- Match `(no consensus) (?:for|to) (\w+)` at the head of the input
(after a word boundary, checked by the caller); returns the two captured
groups with their original case. -/
def ncMatchAt (cs : List Char) : Option (String × String) :=
  match matchLit "no consensus ".toList cs with
  | none => none
  | some (g, r1) =>
    let g1 := String.mk (g.dropLast)
    let tryWord := fun (r : List Char) =>
      let w := r.takeWhile isWordChar
      if w.isEmpty then none else some (String.mk w)
    match matchLit "for ".toList r1 with
    | some (_, r2) =>
      match tryWord r2 with
      | some w => some (g1, w)
      | none =>
        match matchLit "to ".toList r1 with
        | some (_, r3) => (tryWord r3).map (fun w => (g1, w))
        | none => none
    | none =>
      match matchLit "to ".toList r1 with
      | some (_, r3) => (tryWord r3).map (fun w => (g1, w))
      | none => none

/-- Leftmost match of `\b(no consensus) (?:for|to) (\w+)\b` (re.I), scanning
with the previous character to decide the word boundary. -/
def ncScan : List Char → Option Char → Option (String × String)
  | [], _ => none
  | c :: cs, prev =>
    let bOK := match prev with
      | none => true
      | some p => !isWordChar p
    if bOK then
      match ncMatchAt (c :: cs) with
      | some r => some r
      | none => ncScan cs (some c)
    else ncScan cs (some c)

/-- First match of the retain `no consensus` pattern in a suffix. -/
def ncFind (s : String) : Option (String × String) := ncScan s.toList none

/-- Match `(not )(\w+)` at the head of the input. -/
def notMatchAt (cs : List Char) : Option (String × String) :=
  match matchLit "not ".toList cs with
  | none => none
  | some (g, r1) =>
    let w := r1.takeWhile isWordChar
    if w.isEmpty then none else some (String.mk g, String.mk w)

/-- Leftmost match of `\b(not )(\w+)\b` (re.I). -/
def notScan : List Char → Option Char → Option (String × String)
  | [], _ => none
  | c :: cs, prev =>
    let bOK := match prev with
      | none => true
      | some p => !isWordChar p
    if bOK then
      match notMatchAt (c :: cs) with
      | some r => some r
      | none => notScan cs (some c)
    else notScan cs (some c)

/-- First match of the retain `not <action>` pattern in a suffix. -/
def notFind (s : String) : Option (String × String) := notScan s.toList none

/-- The action normalization `re.sub(r"ed$", "e", word)`. -/
def subEdE (w : String) : String :=
  if sEndsWith w "ed" then w.dropRight 2 ++ "e" else w

/-- Result of CFDWPage._parse_line: the optional discussion-page title
(with its section), the first category link (old), the later category
links (new), the leading text before the first link (pre) and the
trailing text after the last link (suf). -/
structure LineResults where
  cfd_page : Option String := none
  old_cat : Option Cat := none
  new_cats : List Cat := []
  pre : String := ""
  suf : String := ""
deriving DecidableEq, Repr, Inhabited

/-- Loop body of CFDWPage._parse_line: `total` is the number of nodes of
the line, `idx` the 1-based index of the current node, `linkFound` whether
a wikilink was seen.  A text node before the first link overwrites the
leading text; a text node that is the last node of a line with a link
becomes the trailing text; a wikilink is classified as a category (first
category seen becomes old, the rest are appended to new) or as a CFD
discussion page; any other wikilink raises (error); templates and all
other node kinds are ignored. -/
def parseLineAux (total : Nat) :
    List LNode → Nat → Bool → LineResults → Except Unit LineResults
  | [], _, _, r => .ok r
  | n :: rest, idx, linkFound, r =>
    match n with
    | .text s =>
      let r :=
        if !linkFound then { r with pre := sTrim s }
        else if idx == total then { r with suf := sTrim s }
        else r
      parseLineAux total rest (idx + 1) linkFound r
    | .template _ _ => parseLineAux total rest (idx + 1) linkFound r
    | .wikilink t _ =>
      let tn := normNoSec t
      if sStartsWith tn "Category:" then
        let c : Cat := ⟨tn.drop 9⟩
        let r :=
          if r.old_cat.isNone then { r with old_cat := some c }
          else { r with new_cats := r.new_cats ++ [c] }
        parseLineAux total rest (idx + 1) true r
      else if sStartsWith tn "Wikipedia:Categories for discussion/" then
        parseLineAux total rest (idx + 1) true { r with cfd_page := some (normBase t) }
      else
        .error ()

/-- CFDWPage._parse_line on the nodes of one line.  A wikilink that is
neither a category nor a CFD page raises a ValueError in the source
(CfdPage constructor), modelled as an error result. -/
def parse_line (nodes : List LNode) : Except Unit LineResults :=
  parseLineAux nodes.length nodes 1 false {}

/-- Remote-wiki observations consumed by the engine.  Each field is the
value the corresponding pywikibot query returns at the point the engine
asks for it. -/
structure World where
  /-- page existence of a category at validation / move time -/
  catExists : Cat → Bool
  /-- isCategoryRedirect -/
  isCatRedirect : Cat → Bool
  /-- isRedirectPage -/
  isRedirectPage : Cat → Bool
  /-- old_cat.exists() after the bot run and the settle sleep -/
  existsAfterRun : Cat → Bool
  /-- old_cat.isEmptyCategory() after the bot run and the settle sleep -/
  isEmptyAfterRun : Cat → Bool
  /-- page.exists() right after the primary delete attempt -/
  existsAfterDelete : String → Bool
  /-- backlinks(filter_redirects=True) of a page title -/
  redirectBacklinks : String → List String
  /-- existence of a talk page -/
  talkPageExists : String → Bool
  /-- state (existence and nodes) of a talk page, for add_old_cfd -/
  talkState : String → Bool × List LNode
  /-- CfdPage.find_discussion on a sectionless discussion-index title:
  the resolved discussion title (this path re-parses the index page,
  which is remote state) -/
  findDiscussion : String → Cat → String
  /-- CfdPage.get_result for a resolved discussion title -/
  cfdResult : String → String
  /-- CfdPage.get_action for a resolved discussion title and category -/
  cfdAction : String → Cat → String

/-- CfdPage.find_discussion: a reference that already names a section is
returned unchanged; otherwise the discussion-index page is searched
(remote state, supplied by the world). -/
def find_discussion (w : World) (cfd : String) (old : Cat) : String :=
  if titleSection cfd != "" then cfd else w.findDiscussion cfd old

/-- The retain branch of CFDWPage._parse_section: derive (result, action)
from the suffix, trying the `no consensus for/to` pattern, then the
`not <word>` pattern, then the literal `keep`, then falling back to the
recorded close of the resolved discussion. -/
def retainFields (w : World) (cfdR : String) (old : Cat) (suf : String) :
    String × String :=
  match ncFind suf with
  | some (g1, act) => (g1, act)
  | none =>
    match notFind suf with
    | some (g1, wrd) => (g1 ++ wrd, subEdE wrd)
    | none =>
      if containsSub (sToLower suf) "keep" then ("keep", "delete")
      else (w.cfdResult cfdR, w.cfdAction cfdR old)

/-- A typed instruction (the Instruction TypedDict).  Fields that are
meaningless for a mode keep their defaults. -/
structure Instruction where
  mode : Mode
  old_cat : Cat
  new_cats : List Cat
  cfd_page : String
  redirect : Bool := false
  noredirect : Bool := false
  action : String := ""
  result : String := ""
deriving DecidableEq, Repr, Inhabited

/-- Loop body of CFDWPage._parse_section over the lines of a section.
State carried between lines: the current discussion page and the sticky
discussion prefix/suffix; instructions are appended to `acc`.  A line
whose parse raises aborts the rest of the section, keeping what was
already appended (the source catches the exception around the whole
section). -/
def parseSectionAux (w : World) (mode : Mode) :
    List (List LNode) → Option String → String → String →
    List Instruction → List Instruction
  | [], _, _, _, acc => acc
  | line :: rest, cfdP, cfdPre, cfdSuf, acc =>
    match parse_line line with
    | .error _ => acc
    | .ok lr =>
      let cfdPre := if lr.cfd_page.isSome then lr.pre else cfdPre
      let cfdSuf := if lr.cfd_page.isSome then lr.suf else cfdSuf
      let cfdP := match lr.cfd_page with
        | some c => some c
        | none => cfdP
      match cfdP, lr.old_cat with
      | some cfd, some old =>
        let pre := lr.pre ++ cfdPre
        let suf := if lr.suf != "" then lr.suf else cfdSuf
        if containsSub pre "NO BOT" then
          parseSectionAux w mode rest cfdP cfdPre cfdSuf acc
        else
          let cfdR := find_discussion w cfd old
          let base : Instruction :=
            { mode := mode, old_cat := old, new_cats := lr.new_cats,
              cfd_page := cfdR }
          let instr :=
            match mode with
            | .merge => { base with redirect := containsSub pre "REDIRECT" }
            | .move => { base with noredirect := !containsSub pre "REDIRECT" }
            | .retain =>
              let ra := retainFields w cfdR old suf
              { base with result := ra.1, action := ra.2 }
            | .empty => base
          parseSectionAux w mode rest cfdP cfdPre cfdSuf (acc ++ [instr])
      | _, _ => parseSectionAux w mode rest cfdP cfdPre cfdSuf acc

/-- CFDWPage._parse_section on the lines of one section. -/
def parse_section (w : World) (mode : Mode) (lines : List (List LNode))
    (acc : List Instruction) : List Instruction :=
  parseSectionAux w mode lines none "" "" acc

/-- Mode classification of a section heading: the first of the MODES
keywords contained in the lowercased heading title; sections matching no
mode are skipped. -/
def detectMode (heading : String) : Option Mode :=
  let h := sToLower heading
  if containsSub h "move" then some .move
  else if containsSub h "merge" then some .merge
  else if containsSub h "empty" then some .empty
  else if containsSub h "retain" then some .retain
  else none

/-- CFDWPage.parse up to the conflict pass: fold the sections, parsing
those whose heading names a mode and accumulating all instructions. -/
def cfdw_parse (w : World) (secs : List (String × List (List LNode))) :
    List Instruction :=
  secs.foldl
    (fun acc s =>
      match detectMode s.1 with
      | none => acc
      | some m => parse_section w m s.2 acc)
    []

/-- check_instruction: the mode-specific precondition check. -/
def check_instruction (w : World) (i : Instruction) : Bool :=
  if i.old_cat ∈ i.new_cats then false
  else
    match i.mode with
    | .empty => i.new_cats.isEmpty
    | .merge =>
      !i.new_cats.isEmpty &&
        i.new_cats.all (fun c =>
          w.catExists c && !w.isCatRedirect c && !w.isRedirectPage c)
    | .move =>
      match i.new_cats with
      | [n] =>
        !((w.isCatRedirect i.old_cat || w.isRedirectPage i.old_cat) &&
            !w.catExists n) &&
          !(w.isCatRedirect n || w.isRedirectPage n)
      | _ => false
    | .retain =>
      w.catExists i.old_cat && i.new_cats.isEmpty &&
        !(i.action == "") && !(i.result == "")

/-- The categories an instruction touches: its old category and its new
categories (the set `cats` of the filtering pass). -/
def catsOf (i : Instruction) : List Cat := i.old_cat :: i.new_cats

/-- First pass of CFDWPage._check_run: fold the instructions, adding an
old category to the skip set when it was already seen, then recording the
old category and every new category as seen.  Sets are lists queried only
by membership. -/
def collect : List Instruction → List Cat → List Cat → List Cat × List Cat
  | [], seen, skip => (seen, skip)
  | i :: rest, seen, skip =>
    let skip := if i.old_cat ∈ seen then i.old_cat :: skip else skip
    let seen := i.old_cat :: (seen ++ i.new_cats)
    collect rest seen skip

/-- The skip set of a run. -/
def skipOf (l : List Instruction) : List Cat := (collect l [] []).2

/-- Second pass of CFDWPage._check_run on one instruction: kept iff its
categories avoid the skip set and the precondition check passes. -/
def keepInstr (w : World) (skip : List Cat) (i : Instruction) : Bool :=
  (catsOf i).all (fun c => decide (c ∉ skip)) && check_instruction w i

/-- CFDWPage._check_run: the validated instruction list (the instructions
that are also executed, in order). -/
def check_run (w : World) (l : List Instruction) : List Instruction :=
  l.filter (keepInstr w (skipOf l))

/-- A remote action performed by the executors, in order: a bot pass
over the member pages, the settle sleep, a page deletion, a category
rename, a conversion to a category redirect, a CFD-template removal
edit, or a talk-page save. -/
inductive Event where
  | runBot (old : Cat) (newCats : List Cat) (summary : String)
  | sleepE
  | deleteP (title : String) (reason : String)
  | moveCat (old newC : Cat) (noredirect : Bool) (reason : String)
  | redirCat (old newC : Cat) (summary : String)
  | removeCfd (title : String) (summary : String)
  | savePage (title : String) (summary : String)
deriving DecidableEq, Repr, Inhabited

/-- Talk page title of a page (toggleTalkPage). -/
def talkOf (t : String) : String :=
  if sStartsWith t "Category:" then "Category talk:" ++ t.drop 9
  else "Talk:" ++ t

/-- Whether one node is an Old CfD template with a nonempty date
parameter whose stripped value is the given date (the per-template test
of the add_old_cfd loop; has(date, ignore_empty=True) treats a
whitespace value as absent). -/
def oldCfdDateHit (date : String) : LNode → Bool
  | .template name params =>
    sTrim name == "Old CfD" &&
      (match (params.reverse.find? (fun p => p.1 == "date")).map (·.2) with
       | some v => sTrim v != "" && sTrim v == date
       | none => false)
  | _ => false

/-- Whether the node list holds an Old CfD template for the given date
(the early-return test of add_old_cfd). -/
def hasOldCfdDate (nodes : List LNode) (date : String) : Bool :=
  nodes.any (oldCfdDateHit date)

/-- The date of a discussion page: the part of its sectionless title
after the last slash. -/
def cfdDate (cfdTitle : String) : String :=
  afterLastSlash ((splitOnChar '#' cfdTitle).headD "")

/-- add_old_cfd on a talk-page state (existence flag and nodes): returns
the new state and whether the page was saved.  If the page exists and
already carries an Old CfD template for the same date, return unchanged;
otherwise prepend a fresh Old CfD template and save (which creates the
page if needed). -/
def add_old_cfd (p : Bool × List LNode) (cfdTitle action result : String) :
    (Bool × List LNode) × Bool :=
  let date := cfdDate cfdTitle
  if p.1 && hasOldCfdDate p.2 date then (p, false)
  else
    ((true,
      .template "Old CfD"
          [("action", action), ("date", date),
           ("section", titleSection cfdTitle), ("result", result)] ::
        .text "\n" :: p.2),
     true)

/-- delete_page: the primary delete attempt, then — only when the page no
longer exists — the cascade over redirects to it, its talk page, and
redirects to the talk page. -/
def delete_page (w : World) (title reason : String) : List Event :=
  Event.deleteP title reason ::
    (if w.existsAfterDelete title then []
     else
       let pl := "[[" ++ title ++ "]]"
       (w.redirectBacklinks title).map
           (fun r => Event.deleteP r
             ("[[WP:G8|G8]]: Redirect to deleted page " ++ pl)) ++
         (let talk := talkOf title
          if w.talkPageExists talk then
            Event.deleteP talk
                ("[[WP:G8|G8]]: Talk page of deleted page " ++ pl) ::
              (w.redirectBacklinks talk).map
                (fun r => Event.deleteP r
                  ("[[WP:G8|G8]]: Redirect to deleted page [[" ++ talk ++ "]]"))
          else []))

/-- The merge summary fragment naming the targets.  (In the redirect-cat
summary the source interpolates the raw category list; the exact text of
that summary is approximated here with the same fragment.) -/
def mergeTargets (l : List Cat) : String :=
  match l with
  | [c] => c.textLink
  | [a, b] => a.textLink ++ " and " ++ b.textLink
  | _ => toString l.length ++ " categories"

/-- do_instruction: the per-mode executor, as the ordered list of remote
actions it performs. -/
def do_instruction (w : World) (i : Instruction) : List Event :=
  let old := i.old_cat
  let cfd_link := "[[" ++ i.cfd_page ++ "]]"
  match i.mode with
  | .empty =>
    let summary := "Removing " ++ old.textLink ++ " per " ++ cfd_link
    [Event.runBot old i.new_cats summary, Event.sleepE] ++
      (if w.existsAfterRun old && w.isEmptyAfterRun old then
        delete_page w old.title cfd_link
      else [])
  | .merge =>
    let redirect := if i.new_cats.length == 1 then i.redirect else false
    let summary := "Merging " ++ old.textLink ++ " to " ++
      mergeTargets i.new_cats ++ " per " ++ cfd_link
    [Event.runBot old i.new_cats summary, Event.sleepE] ++
      (if w.existsAfterRun old && w.isEmptyAfterRun old &&
          !w.isCatRedirect old then
        if redirect then
          [Event.redirCat old (i.new_cats.headD default)
            ("Merged to " ++ mergeTargets i.new_cats ++ " per " ++ cfd_link)]
        else delete_page w old.title cfd_link
      else [])
  | .move =>
    let n := i.new_cats.headD default
    let summary := "Moving " ++ old.textLink ++ " to " ++ n.textLink ++
      " per " ++ cfd_link
    (if w.catExists old && !w.isCatRedirect old && !w.isRedirectPage old &&
        !w.catExists n then
      [Event.moveCat old n i.noredirect cfd_link,
       Event.removeCfd n.title "Category moved"]
    else []) ++ [Event.runBot old i.new_cats summary]
  | .retain =>
    let summary := cfd_link ++ " closed as " ++ i.result
    let talk := talkOf old.title
    let r := add_old_cfd (w.talkState talk) i.cfd_page i.action i.result
    Event.removeCfd old.title summary ::
      (if r.2 then [Event.savePage talk summary] else [])

/-- The actions of a whole run: validate, then execute each surviving
instruction in order. -/
def run_events (w : World) (l : List Instruction) : List Event :=
  (check_run w l).flatMap (do_instruction w)

/-- A wikilink title resolved to a category, as done for member-page
links in CfdBot.treat_page (Page then Category; a non-category link
raises and is skipped). -/
def catOfTitle (t : String) : Option Cat :=
  let tn := (splitOnChar '#' (sTrim t)).headD ""
  if sStartsWith tn "Category:" then some ⟨tn.drop 9⟩ else none

/-- Collect the category links of a member page, in order, and the index
of the last link equal to the old category.  Links whose title starts
with a colon are skipped, as in the source loop. -/
def collectCats (old : Cat) :
    List LNode → Nat → List Cat → Option Nat → List Cat × Option Nat
  | [], _, cats, oidx => (cats, oidx)
  | n :: rest, idx, cats, oidx =>
    match n with
    | .wikilink t _ =>
      if sStartsWith (sTrim t) ":" then collectCats old rest (idx + 1) cats oidx
      else
        match catOfTitle t with
        | some c =>
          collectCats old rest (idx + 1) (cats ++ [c])
            (if c = old then some idx else oidx)
        | none => collectCats old rest (idx + 1) cats oidx
    | _ => collectCats old rest (idx + 1) cats oidx

/-- Descending insertion (sorted(..., reverse=True) on category titles). -/
def insertDesc (c : Cat) : List Cat → List Cat
  | [] => [c]
  | x :: xs => if x.name ≤ c.name then c :: x :: xs else x :: insertDesc c xs

/-- The bot option normalization of CfdBot.__init__. -/
def sortRevCats (l : List Cat) : List Cat := l.foldr insertDesc []

/-- Replace the title of a wikilink node, keeping its anchor text (the
in-place title update that preserves the sort key). -/
def retitle (n : LNode) (t : String) : LNode :=
  match n with
  | .wikilink _ a => .wikilink t a
  | other => other

/-- Drop one trailing newline of a string (the optional newline the
removal regex of the fallback branch consumes before the old link). -/
def stripNl (s : String) : String :=
  if sEndsWith s "\n" then s.dropRight 1 else s

/-- Node-level counterpart of the fallback-branch removal regex: drop
every node equal to the old link, absorbing a newline at the end of the
text node directly before it. -/
def removeOld (target : LNode) : List LNode → List LNode
  | [] => []
  | .text s :: l :: rest =>
    if l = target then .text (stripNl s) :: removeOld target rest
    else .text s :: removeOld target (l :: rest)
  | n :: rest =>
    if n = target then removeOld target rest else n :: removeOld target rest

/-- The fallback branch of CfdBot.treat_page: insert, directly after the
old link, each target not already on the page (repeated insert_after
reverses the iteration order), then remove the old link itself. -/
def treatFallback (oldLink : LNode) (newCats cats : List Cat)
    (nodes : List LNode) (i : Nat) : List LNode :=
  let toInsert := (newCats.filter (fun c => decide (c ∉ cats))).reverse
  let inserted := nodes.take (i + 1) ++
    toInsert.flatMap (fun c => [LNode.text "\n", LNode.wikilink c.title none]) ++
    nodes.drop (i + 1)
  removeOld oldLink inserted

/-- CfdBot.treat_page on the nodes of one member page: find the category
links and the last link to the old category; with exactly one target not
already present, retitle that link in place; otherwise insert the
missing targets after it and remove it.  Returns the page nodes after
the edit (unchanged when the old category is not found). -/
def treat_page (old : Cat) (newCatsIn : List Cat) (nodes : List LNode) :
    List LNode :=
  let newCats := sortRevCats newCatsIn
  let r := collectCats old nodes 0 [] none
  match r.2 with
  | none => nodes
  | some i =>
    if newCats.length == 1 && decide (newCats.headD default ∉ r.1) then
      nodes.set i (retitle (nodes.getD i (.text "")) (newCats.headD default).title)
    else
      treatFallback (nodes.getD i (.text "")) newCats r.1 nodes i

/-- A page produced by the command-line generator: its edit-protection
entry (level and expiry, when the protection dict has an edit key) and
its parsed sections. -/
structure GenPage where
  editProt : Option (String × String)
  secs : List (String × List (List LNode))
deriving Inhabited

/-- The protection test of main: protection().get(edit, (empty, empty))
has first component equal to sysop. -/
def sysopProtected (p : GenPage) : Bool :=
  (p.editProt.getD ("", "")).1 == "sysop"

/-- The generator loop of main: each yielded page is parsed and run only
when its edit protection is sysop. -/
def main_run (w : World) (pages : List GenPage) : List Event :=
  pages.flatMap (fun p =>
    if sysopProtected p then run_events w (cfdw_parse w p.secs) else [])

/-- CfdPage._cat_from_node: the category a node resolves to, if any — a
cat-template (c, cl, lc) with a first parameter, or a wikilink whose
sectionless title is in the category namespace. -/
def cat_from_node : LNode → Option Cat
  | .template name params =>
    if sToLower (sTrim name) == "c" || sToLower (sTrim name) == "cl" ||
        sToLower (sTrim name) == "lc" then
      match (params.reverse.find? (fun p => p.1 == "1")).map (·.2) with
      | some v =>
        let t := sTrim v
        some ⟨if sStartsWith t "Category:" then t.drop 9 else t⟩
      | none => none
    else none
  | .wikilink t _ =>
    let t0 := normNoSec t
    if sStartsWith t0 "Category:" then some ⟨t0.drop 9⟩ else none
  | _ => none

/-- A terminal lifecycle action: a page deletion or a conversion to a
category redirect. -/
def isTerminalEvent : Event → Bool
  | .deleteP _ _ => true
  | .redirCat _ _ _ => true
  | _ => false

/-- A concrete world for witnesses and counterexamples: the categories
named Old, New, X, Y and Foo exist, nothing is a redirect, the source
category still has members after the settle wait, the primary delete
attempt leaves the page in place, and talk pages are empty. -/
def wBenign : World where
  catExists := fun c => decide (c.name ∈ ["Old", "New", "X", "Y", "Foo"])
  isCatRedirect := fun _ => false
  isRedirectPage := fun _ => false
  existsAfterRun := fun _ => true
  isEmptyAfterRun := fun _ => false
  existsAfterDelete := fun _ => true
  redirectBacklinks := fun _ => []
  talkPageExists := fun _ => false
  talkState := fun _ => (false, [])
  findDiscussion := fun c _ => c
  cfdResult := fun _ => ""
  cfdAction := fun _ _ => ""

/-- Empty-mode instruction with a target, for the C3 witness. -/
def i3e : Instruction :=
  { mode := .empty, old_cat := ⟨"E"⟩, new_cats := [⟨"F"⟩], cfd_page := "W" }

/-- Merge-mode instruction without targets, for the C3 witness. -/
def i3m : Instruction :=
  { mode := .merge, old_cat := ⟨"M"⟩, new_cats := [], cfd_page := "W" }

/-- Move-mode instruction with two targets, for the C3 witness. -/
def i3v : Instruction :=
  { mode := .move, old_cat := ⟨"V"⟩, new_cats := [⟨"A"⟩, ⟨"B"⟩],
    cfd_page := "W" }

/-- Empty-mode instruction over a still-populated category, for the C8
witness. -/
def i8 : Instruction :=
  { mode := .empty, old_cat := ⟨"Old"⟩, new_cats := [], cfd_page := "W#S" }

/-- C3: check_instruction returns false for every empty instruction with
a non-empty new_categories list, every merge instruction with an empty
one, and every move instruction whose list is not a singleton, whatever
the other fields and the remote state; such an instruction is therefore
never in the validated list of any run. -/
theorem check_instruction_rejects_arity (w : World) (i : Instruction)
    (h : (i.mode = Mode.empty ∧ i.new_cats ≠ []) ∨
      (i.mode = Mode.merge ∧ i.new_cats = []) ∨
      (i.mode = Mode.move ∧ i.new_cats.length ≠ 1)) :
    check_instruction w i = false ∧ ∀ l : List Instruction, i ∉ check_run w l := by
  have hfalse : check_instruction w i = false := by
    rcases h with ⟨hm, hne⟩ | ⟨hm, hnil⟩ | ⟨hm, hlen⟩
    · by_cases hmem : i.old_cat ∈ i.new_cats
      · simp [check_instruction, hmem]
      · rcases hc : i.new_cats with _ | ⟨a, t⟩
        · exact absurd hc hne
        · simp [check_instruction, hmem, hm, hc]
    · by_cases hmem : i.old_cat ∈ i.new_cats
      · simp [check_instruction, hmem]
      · simp [check_instruction, hmem, hm, hnil]
    · by_cases hmem : i.old_cat ∈ i.new_cats
      · simp [check_instruction, hmem]
      · rcases hc : i.new_cats with _ | ⟨a, _ | ⟨b, t⟩⟩
        · simp [check_instruction, hmem, hm, hc]
        · exact absurd (by rw [hc]; rfl) hlen
        · simp [check_instruction, hmem, hm, hc]
  refine ⟨hfalse, ?_⟩
  intro l hmem
  rw [check_run, List.mem_filter] at hmem
  have hk := hmem.2
  rw [keepInstr, Bool.and_eq_true, hfalse] at hk
  exact Bool.false_ne_true hk.2

/-- Witness for C3 at three concrete instructions. -/
theorem check_instruction_rejects_arity_witness :
    check_instruction wBenign i3e = false ∧
    check_instruction wBenign i3m = false ∧
    check_instruction wBenign i3v = false ∧
    i3e ∉ check_run wBenign [i3e] :=
  ⟨(check_instruction_rejects_arity wBenign i3e (Or.inl ⟨rfl, by decide⟩)).1,
   (check_instruction_rejects_arity wBenign i3m (Or.inr (Or.inl ⟨rfl, rfl⟩))).1,
   (check_instruction_rejects_arity wBenign i3v
     (Or.inr (Or.inr ⟨rfl, by decide⟩))).1,
   (check_instruction_rejects_arity wBenign i3e
     (Or.inl ⟨rfl, by decide⟩)).2 [i3e]⟩

/-- C8: for an empty- or merge-mode instruction whose source category is
still non-empty after the settle wait, the executor performs no terminal
action — no deletion of any page and no conversion to a redirect — and
returns normally (the event list is still well defined, so the run moves
on to the next instruction). -/
theorem nonempty_category_skips_terminal (w : World) (i : Instruction)
    (hm : i.mode = Mode.empty ∨ i.mode = Mode.merge)
    (he : w.isEmptyAfterRun i.old_cat = false) :
    (do_instruction w i).all (fun e => !isTerminalEvent e) = true := by
  rcases hm with hm | hm <;> simp [do_instruction, hm, he, isTerminalEvent]

/-- Witness for C8 at a concrete world and instruction. -/
theorem nonempty_category_skips_terminal_witness :
    (do_instruction wBenign i8).all (fun e => !isTerminalEvent e) = true :=
  nonempty_category_skips_terminal wBenign i8 (Or.inl rfl) rfl

/-- C10: when the page still exists after the primary delete attempt,
delete_page performs no further deletion: the cascade over redirects and
the talk page runs only once the page is gone. -/
theorem delete_page_skips_cascade_when_page_survives (w : World)
    (t reason : String) (h : w.existsAfterDelete t = true) :
    delete_page w t reason = [Event.deleteP t reason] := by
  simp [delete_page, h]

/-- Witness for C10 at a concrete world. -/
theorem delete_page_skips_cascade_when_page_survives_witness :
    delete_page wBenign "Category:Gone" "[[W#S]]" =
      [Event.deleteP "Category:Gone" "[[W#S]]"] :=
  delete_page_skips_cascade_when_page_survives wBenign "Category:Gone"
    "[[W#S]]" rfl

/-- C9: the generator loop of main behaves as if only the pages whose
edit protection is exactly sysop were generated — every other page is
skipped entirely, contributing no parse and no action — and the
protection test holds exactly when the edit-protection entry is present
with level sysop. -/
theorem main_skips_non_sysop (w : World) (pages : List GenPage) :
    main_run w pages = main_run w (pages.filter sysopProtected) ∧
    ∀ p : GenPage, sysopProtected p = true ↔
      ∃ e, p.editProt = some ("sysop", e) := by
  constructor
  · induction pages with
    | nil => rfl
    | cons p t ih =>
      by_cases hp : sysopProtected p = true
      · simp only [main_run, List.filter_cons, hp, if_true, List.flatMap_cons]
          at ih ⊢
        rw [ih]
      · simp only [main_run, List.filter_cons, hp, if_false, Bool.false_eq_true,
          List.flatMap_cons] at ih ⊢
        rw [List.nil_append]
        exact ih
  · intro p
    match he : p.editProt with
    | none =>
      simp only [sysopProtected, he, Option.getD_none]
      constructor
      · intro habs
        exact absurd habs (by decide)
      · rintro ⟨e, habs⟩
        exact absurd habs (by simp)
    | some (lvl, e) =>
      simp only [sysopProtected, he, Option.getD_some]
      constructor
      · intro hb
        exact ⟨e, by simp only [beq_iff_eq] at hb; rw [hb]⟩
      · rintro ⟨e2, hsome⟩
        have : lvl = "sysop" := (Prod.mk.injEq _ _ _ _ ▸ Option.some.inj hsome).1
        simp [this]

/-- Witness for C9 at a concrete world and page list (one protected, one
unprotected page carrying the same sections). -/
theorem main_skips_non_sysop_witness :
    main_run wBenign
        [{ editProt := some ("sysop", "infinity"), secs := [] },
         { editProt := none, secs := [] }] =
      main_run wBenign
        ([{ editProt := some ("sysop", "infinity"), secs := [] },
          { editProt := none, secs := [] }].filter sysopProtected) ∧
    sysopProtected { editProt := some ("sysop", "infinity"), secs := [] } =
      true :=
  ⟨(main_skips_non_sysop wBenign _).1,
   ((main_skips_non_sysop wBenign []).2
       { editProt := some ("sysop", "infinity"), secs := [] }).mpr
     ⟨"infinity", rfl⟩⟩

/-- C7: with exactly one replacement category that is not already on the
page, treat_page rewrites only the title of the matched category link:
the node list keeps its length, every other node is unchanged, and the
anchor (sort key) of the rewritten link is kept. -/
theorem one_to_one_rename_in_place (old n : Cat) (nodes : List LNode)
    (cats : List Cat) (i : Nat) (t : String) (a : Option String)
    (hc : collectCats old nodes 0 [] none = (cats, some i))
    (hn : n ∉ cats)
    (hi : nodes.getD i (.text "") = .wikilink t a) :
    treat_page old [n] nodes = nodes.set i (.wikilink n.title a) ∧
    ∀ j, j ≠ i →
      (treat_page old [n] nodes).getD j (.text "") =
        nodes.getD j (.text "") := by
  have hn2 : decide (n ∉ cats) = true := decide_eq_true hn
  have h1 : treat_page old [n] nodes = nodes.set i (.wikilink n.title a) := by
    unfold treat_page
    rw [hc]
    simp only [sortRevCats, List.foldr, insertDesc, List.length_cons,
      List.length_nil, List.headD, hn2, Bool.and_true, beq_self_eq_true]
    rw [hi]
    rfl
  refine ⟨h1, ?_⟩
  intro j hj
  rw [h1]
  simp only [List.getD, List.get?_eq_getElem?]
  rw [List.getElem?_set_ne (fun h => hj h.symm)]

/-- Witness for C7 at a concrete page with a sort key on the link. -/
theorem one_to_one_rename_in_place_witness :
    treat_page ⟨"Old"⟩ [⟨"New"⟩]
        [.text "intro", .wikilink "Category:Old" (some "Sort"), .text "tail"] =
      [.text "intro", .wikilink "Category:New" (some "Sort"), .text "tail"] :=
  (one_to_one_rename_in_place ⟨"Old"⟩ ⟨"New"⟩
      [.text "intro", .wikilink "Category:Old" (some "Sort"), .text "tail"]
      [⟨"Old"⟩] 1 "Category:Old" (some "Sort") (by decide) (by decide) rfl).1

/-- C6 counterexample: for the (valid) discussion title consisting of the
bare index prefix, whose date segment is empty, add_old_cfd is not
idempotent — the second run prepends a second template, because the
ignore-empty date lookup never sees the note left by the first run. -/
theorem add_old_cfd_empty_date_counterexample :
    (add_old_cfd
        (add_old_cfd (false, []) "Wikipedia:Categories for discussion/"
            "keep" "keep").1
        "Wikipedia:Categories for discussion/" "keep" "keep").1 ≠
      (add_old_cfd (false, []) "Wikipedia:Categories for discussion/"
          "keep" "keep").1 := by
  decide

/-- C6 (amended): when the discussion title yields a nonempty,
whitespace-free date segment — as every dated discussion page does —
add_old_cfd returns without change whenever the page already holds an
Old CfD note for that date, and running it twice with the same arguments
leaves the same state as running it once. -/
theorem add_old_cfd_idempotent_for_dated_discussions
    (p : Bool × List LNode) (t action result : String)
    (h1 : cfdDate t ≠ "") (h2 : sTrim (cfdDate t) = cfdDate t) :
    (p.1 = true → hasOldCfdDate p.2 (cfdDate t) = true →
      add_old_cfd p t action result = (p, false)) ∧
    (add_old_cfd (add_old_cfd p t action result).1 t action result).1 =
      (add_old_cfd p t action result).1 := by
  constructor
  · intro hp hh
    simp [add_old_cfd, hp, hh]
  · by_cases hc : (p.1 && hasOldCfdDate p.2 (cfdDate t)) = true
    · simp [add_old_cfd, hc]
    · have hb1 : (cfdDate t == "") = false := beq_eq_false_iff_ne.mpr h1
      have hhit : oldCfdDateHit (cfdDate t)
          (LNode.template "Old CfD"
            [("action", action), ("date", cfdDate t),
             ("section", titleSection t), ("result", result)]) =
          (sTrim (cfdDate t) != "" && sTrim (cfdDate t) == cfdDate t) := rfl
      have hnew : hasOldCfdDate
          (LNode.template "Old CfD"
              [("action", action), ("date", cfdDate t),
               ("section", titleSection t), ("result", result)] ::
            LNode.text "\n" :: p.2) (cfdDate t) = true := by
        simp only [hasOldCfdDate, List.any_cons, Bool.or_eq_true]
        refine Or.inl ?_
        rw [hhit, h2]
        simp [bne, hb1]
      have hq : add_old_cfd p t action result =
          ((true, LNode.template "Old CfD"
              [("action", action), ("date", cfdDate t),
               ("section", titleSection t), ("result", result)] ::
            LNode.text "\n" :: p.2), true) := by
        simp only [add_old_cfd, if_neg hc]
      rw [hq]
      simp [add_old_cfd, hnew]

/-- Witness for C6: a dated discussion title, an empty talk page
(idempotence of the insertion) and a talk page already carrying the
note (the early return). -/
theorem add_old_cfd_idempotent_for_dated_discussions_witness :
    add_old_cfd
        (true,
          [LNode.template "Old CfD"
            [("action", "keep"), ("date", "2024 January 1"),
             ("section", "Foo"), ("result", "keep")]])
        "Wikipedia:Categories for discussion/Log/2024 January 1#Foo"
        "keep" "keep" =
      ((true,
        [LNode.template "Old CfD"
          [("action", "keep"), ("date", "2024 January 1"),
           ("section", "Foo"), ("result", "keep")]]), false) ∧
    (add_old_cfd
        (add_old_cfd (false, [])
            "Wikipedia:Categories for discussion/Log/2024 January 1#Foo"
            "keep" "keep").1
        "Wikipedia:Categories for discussion/Log/2024 January 1#Foo"
        "keep" "keep").1 =
      (add_old_cfd (false, [])
          "Wikipedia:Categories for discussion/Log/2024 January 1#Foo"
          "keep" "keep").1 :=
  ⟨(add_old_cfd_idempotent_for_dated_discussions
      (true,
        [LNode.template "Old CfD"
          [("action", "keep"), ("date", "2024 January 1"),
           ("section", "Foo"), ("result", "keep")]])
      "Wikipedia:Categories for discussion/Log/2024 January 1#Foo"
      "keep" "keep" (by decide) (by decide)).1 rfl (by decide),
   (add_old_cfd_idempotent_for_dated_discussions (false, [])
      "Wikipedia:Categories for discussion/Log/2024 January 1#Foo"
      "keep" "keep" (by decide) (by decide)).2⟩

/-- C4 counterexample: a line holding only a cat-template that resolves
to a category reference (per CfdPage._cat_from_node) yields a line
result with no old category and no new categories — the line parser
ignores templates. -/
theorem template_category_not_assigned_counterexample :
    cat_from_node (.template "c" [("1", "Foo")]) = some ⟨"Foo"⟩ ∧
    parse_line [.template "c" [("1", "Foo")]] =
      .ok { cfd_page := none, old_cat := none, new_cats := [],
            pre := "", suf := "" } := by
  decide

/-- C4 (amended): the line parser assigns only wikilinks that resolve to
category pages — the first becomes the old category and the rest are
appended to the new categories — while template nodes are ignored
entirely: a line of templates parses to the empty result whatever
categories they resolve to, and a category-resolving template earlier on
the line does not take the old-category slot from a later wikilink. -/
theorem parse_line_assigns_only_wikilinks
    (tpls : List (String × List (String × String))) :
    parse_line (tpls.map (fun q => LNode.template q.1 q.2)) = .ok {} ∧
    parse_line [.wikilink "Category:A" none, .wikilink "Category:B" none,
        .wikilink "Category:C" none] =
      .ok { old_cat := some ⟨"A"⟩, new_cats := [⟨"B"⟩, ⟨"C"⟩] } ∧
    parse_line [.template "c" [("1", "Foo")], .wikilink "Category:A" none] =
      .ok { old_cat := some ⟨"A"⟩ } := by
  have aux : ∀ (l : List (String × List (String × String)))
      (total idx : Nat) (lf : Bool) (r : LineResults),
      parseLineAux total (l.map (fun q => LNode.template q.1 q.2)) idx lf r =
        .ok r := by
    intro l
    induction l with
    | nil => intro total idx lf r; rfl
    | cons q t ih => intro total idx lf r; exact ih total (idx + 1) lf r
  exact ⟨aux tpls _ 1 false {}, by decide, by decide⟩

/-- Merge instruction sharing target X with iB, for the C1 refutation. -/
def iA : Instruction :=
  { mode := .merge, old_cat := ⟨"A"⟩, new_cats := [⟨"X"⟩],
    cfd_page := "Wikipedia:Categories for discussion/Log/2024 January 1#A" }

/-- Merge instruction sharing target X with iA, for the C1 refutation. -/
def iB : Instruction :=
  { mode := .merge, old_cat := ⟨"B"⟩, new_cats := [⟨"X"⟩],
    cfd_page := "Wikipedia:Categories for discussion/Log/2024 January 1#B" }

/-- Merge instruction whose old category is the shared X, for the C1
witness. -/
def iC : Instruction :=
  { mode := .merge, old_cat := ⟨"X"⟩, new_cats := [⟨"Y"⟩],
    cfd_page := "Wikipedia:Categories for discussion/Log/2024 January 1#X" }

/-- C1 counterexample: two distinct instructions that share the category
X as a member of both new-category lists both survive the conflict pass
— the skip set records a category only when it reappears as an old
category. -/
theorem conflict_shared_new_target_counterexample :
    iA ≠ iB ∧ (⟨"X"⟩ : Cat) ∈ catsOf iA ∧ (⟨"X"⟩ : Cat) ∈ catsOf iB ∧
    check_run wBenign [iA, iB] = [iA, iB] := by
  decide

/-- Collect pass over an appended list runs the passes in sequence. -/
theorem collect_append (a b : List Instruction) (seen skip : List Cat) :
    collect (a ++ b) seen skip =
      collect b (collect a seen skip).1 (collect a seen skip).2 := by
  induction a generalizing seen skip with
  | nil => rfl
  | cons i t ih =>
    have h1 : collect ((i :: t) ++ b) seen skip =
        collect (t ++ b) (i.old_cat :: (seen ++ i.new_cats))
          (if i.old_cat ∈ seen then i.old_cat :: skip else skip) := rfl
    have h2 : collect (i :: t) seen skip =
        collect t (i.old_cat :: (seen ++ i.new_cats))
          (if i.old_cat ∈ seen then i.old_cat :: skip else skip) := rfl
    rw [h1, h2, ih]

/-- The seen set of the collect pass only grows. -/
theorem collect_seen_mono (l : List Instruction) (c : Cat) :
    ∀ seen skip : List Cat, c ∈ seen → c ∈ (collect l seen skip).1 := by
  induction l with
  | nil => intro _ _ h; exact h
  | cons i t ih =>
    intro seen skip h
    have h1 : collect (i :: t) seen skip =
        collect t (i.old_cat :: (seen ++ i.new_cats))
          (if i.old_cat ∈ seen then i.old_cat :: skip else skip) := rfl
    rw [h1]
    exact ih _ _ (List.mem_cons_of_mem _ (List.mem_append_left _ h))

/-- The skip set of the collect pass only grows. -/
theorem collect_skip_mono (l : List Instruction) (c : Cat) :
    ∀ seen skip : List Cat, c ∈ skip → c ∈ (collect l seen skip).2 := by
  induction l with
  | nil => intro _ _ h; exact h
  | cons i t ih =>
    intro seen skip h
    have h1 : collect (i :: t) seen skip =
        collect t (i.old_cat :: (seen ++ i.new_cats))
          (if i.old_cat ∈ seen then i.old_cat :: skip else skip) := rfl
    rw [h1]
    refine ih _ _ ?_
    by_cases hm : i.old_cat ∈ seen
    · rw [if_pos hm]; exact List.mem_cons_of_mem _ h
    · rw [if_neg hm]; exact h

/-- C1 (amended): the conflict pass drops both instructions of a
category-sharing pair exactly when the shared category is the old
category of the later instruction (in particular whenever it is the old
category of both): neither is validated nor executed then.  When the
shared category only appears among the new categories of the later
instruction, the skip set never records it (see the counterexample). -/
theorem conflict_skip_detects_old_of_later (w : World)
    (l1 l2 l3 : List Instruction) (i j : Instruction) (c : Cat)
    (hci : c ∈ catsOf i) (hcj : j.old_cat = c) :
    i ∉ check_run w (l1 ++ i :: l2 ++ j :: l3) ∧
    j ∉ check_run w (l1 ++ i :: l2 ++ j :: l3) := by
  have hstep : ∀ (k : Instruction) (rest : List Instruction) (sn sk : List Cat),
      collect (k :: rest) sn sk =
        collect rest (k.old_cat :: (sn ++ k.new_cats))
          (if k.old_cat ∈ sn then k.old_cat :: sk else sk) :=
    fun _ _ _ _ => rfl
  have hskip : c ∈ skipOf (l1 ++ i :: l2 ++ j :: l3) := by
    unfold skipOf
    rw [collect_append (l1 ++ i :: l2) (j :: l3) [] [],
      collect_append l1 (i :: l2) [] [], hstep i l2, hstep j l3]
    have hcseen : c ∈ (collect l2
        (i.old_cat :: ((collect l1 [] []).1 ++ i.new_cats))
        (if i.old_cat ∈ (collect l1 [] []).1 then
          i.old_cat :: (collect l1 [] []).2
        else (collect l1 [] []).2)).1 := by
      refine collect_seen_mono l2 c _ _ ?_
      rcases List.mem_cons.mp hci with h | h
      · rw [h]; exact List.mem_cons_self _ _
      · exact List.mem_cons_of_mem _ (List.mem_append_right _ h)
    refine collect_skip_mono l3 c _ _ ?_
    rw [if_pos (show j.old_cat ∈ _ from hcj ▸ hcseen), hcj]
    exact List.mem_cons_self _ _
  have hdrop : ∀ k : Instruction, c ∈ catsOf k →
      k ∉ check_run w (l1 ++ i :: l2 ++ j :: l3) := by
    intro k hck hmem
    rw [check_run, List.mem_filter] at hmem
    have hall := hmem.2
    rw [keepInstr, Bool.and_eq_true, List.all_eq_true] at hall
    have hc2 := hall.1 c hck
    rw [decide_eq_true_eq] at hc2
    exact hc2 hskip
  exact ⟨hdrop i hci,
    hdrop j (by rw [catsOf, ← hcj]; exact List.mem_cons_self _ _)⟩

/-- Witness for C1 at a concrete pair: iA puts X among its targets, the
later iC has X as old category, so both are dropped. -/
theorem conflict_skip_detects_old_of_later_witness :
    iA ∉ check_run wBenign ([] ++ iA :: [] ++ iC :: []) ∧
    iC ∉ check_run wBenign ([] ++ iA :: [] ++ iC :: []) :=
  conflict_skip_detects_old_of_later wBenign [] [] [] iA iC ⟨"X"⟩
    (by decide) rfl

/-- A world where the source category Old exists and the target New does
not exist yet; nothing is a redirect. -/
def wFresh : World where
  catExists := fun c => c.name == "Old"
  isCatRedirect := fun _ => false
  isRedirectPage := fun _ => false
  existsAfterRun := fun _ => true
  isEmptyAfterRun := fun _ => false
  existsAfterDelete := fun _ => true
  redirectBacklinks := fun _ => []
  talkPageExists := fun _ => false
  talkState := fun _ => (false, [])
  findDiscussion := fun c _ => c
  cfdResult := fun _ => ""
  cfdAction := fun _ _ => ""

/-- The working-page line of the end-to-end move scenario. -/
def moveLine : List LNode :=
  [.wikilink ":Category:Old" none, .text " to ",
   .wikilink ":Category:New" none, .text " per ",
   .wikilink "Wikipedia:Categories for discussion/Log/2024 January 1#Old"
     none]

/-- The one-section working page of the move scenario. -/
def moveSecs : List (String × List (List LNode)) := [("Move", [moveLine])]

/-- The instruction the move scenario parses to. -/
def moveInstr : Instruction :=
  { mode := .move, old_cat := ⟨"Old"⟩, new_cats := [⟨"New"⟩],
    cfd_page := "Wikipedia:Categories for discussion/Log/2024 January 1#Old",
    noredirect := true }

/-- The edit summary of the move-scenario bot pass. -/
def moveSummary : String :=
  "Moving [[:Category:Old]] to [[:Category:New]] per " ++
    "[[Wikipedia:Categories for discussion/Log/2024 January 1#Old]]"

/-- C2 counterexample: in the scenario world where the target category
New exists and is not a redirect, the section parses to exactly the
claimed move instruction, but executing it performs no rename and no
template strip — the executor renames only when the target does not yet
exist — so the run is a bare recategorizer pass. -/
theorem move_existing_target_not_renamed_counterexample :
    cfdw_parse wBenign moveSecs = [moveInstr] ∧
    moveInstr.noredirect = true ∧ moveInstr.new_cats = [⟨"New"⟩] ∧
    wBenign.catExists ⟨"New"⟩ = true ∧
    wBenign.isCatRedirect ⟨"New"⟩ = false ∧
    wBenign.isRedirectPage ⟨"New"⟩ = false ∧
    run_events wBenign (cfdw_parse wBenign moveSecs) =
      [Event.runBot ⟨"Old"⟩ [⟨"New"⟩] moveSummary] := by
  decide

/-- C2 (amended): for the scenario section — heading Move, one line
linking the old category, the new category and a sectioned discussion
page, no REDIRECT marker — in any world where the source exists and is
no redirect and the target does NOT yet exist (and is no redirect),
parsing yields exactly one move instruction with noredirect set and the
single target, and the run renames the source to the target, strips the
CFD template from the target, and then runs the member recategorizer
over the source. -/
theorem move_scenario_renames_fresh_target (w : World)
    (h1 : w.catExists ⟨"Old"⟩ = true) (h2 : w.isCatRedirect ⟨"Old"⟩ = false)
    (h3 : w.isRedirectPage ⟨"Old"⟩ = false)
    (h4 : w.catExists ⟨"New"⟩ = false)
    (h5 : w.isCatRedirect ⟨"New"⟩ = false)
    (h6 : w.isRedirectPage ⟨"New"⟩ = false) :
    cfdw_parse w moveSecs = [moveInstr] ∧
    moveInstr.noredirect = true ∧ moveInstr.new_cats = [⟨"New"⟩] ∧
    run_events w (cfdw_parse w moveSecs) =
      [Event.moveCat ⟨"Old"⟩ ⟨"New"⟩ true
        "[[Wikipedia:Categories for discussion/Log/2024 January 1#Old]]",
       Event.removeCfd "Category:New" "Category moved",
       Event.runBot ⟨"Old"⟩ [⟨"New"⟩] moveSummary] := by
  have hparse : cfdw_parse w moveSecs = [moveInstr] := rfl
  have hchk : check_instruction w moveInstr = true := by
    show (if (⟨"Old"⟩ : Cat) ∈ [(⟨"New"⟩ : Cat)] then false
      else
        !((w.isCatRedirect ⟨"Old"⟩ || w.isRedirectPage ⟨"Old"⟩) &&
            !w.catExists ⟨"New"⟩) &&
          !(w.isCatRedirect ⟨"New"⟩ || w.isRedirectPage ⟨"New"⟩)) = true
    rw [if_neg (by decide : ¬((⟨"Old"⟩ : Cat) ∈ [(⟨"New"⟩ : Cat)]))]
    rw [h2, h3, h4, h5, h6]
    rfl
  have hkeep : keepInstr w (skipOf [moveInstr]) moveInstr = true := by
    unfold keepInstr
    rw [hchk, Bool.and_true]
    rfl
  have hdo : do_instruction w moveInstr =
      [Event.moveCat ⟨"Old"⟩ ⟨"New"⟩ true
        "[[Wikipedia:Categories for discussion/Log/2024 January 1#Old]]",
       Event.removeCfd "Category:New" "Category moved",
       Event.runBot ⟨"Old"⟩ [⟨"New"⟩] moveSummary] := by
    show (if w.catExists ⟨"Old"⟩ && !w.isCatRedirect ⟨"Old"⟩ &&
          !w.isRedirectPage ⟨"Old"⟩ && !w.catExists ⟨"New"⟩ then
        [Event.moveCat ⟨"Old"⟩ ⟨"New"⟩ true
          "[[Wikipedia:Categories for discussion/Log/2024 January 1#Old]]",
         Event.removeCfd "Category:New" "Category moved"]
      else []) ++ [Event.runBot ⟨"Old"⟩ [⟨"New"⟩] moveSummary] = _
    rw [h1, h2, h3, h4]
    rfl
  refine ⟨hparse, rfl, rfl, ?_⟩
  rw [hparse]
  show (check_run w [moveInstr]).flatMap (do_instruction w) = _
  have hfilter : check_run w [moveInstr] = [moveInstr] := by
    show List.filter (keepInstr w (skipOf [moveInstr])) [moveInstr] =
      [moveInstr]
    rw [List.filter_cons, hkeep]
    rfl
  rw [hfilter, List.flatMap_cons, hdo]
  rfl

/-- Witness for C2 at a concrete world where New does not exist. -/
theorem move_scenario_renames_fresh_target_witness :
    cfdw_parse wFresh moveSecs = [moveInstr] ∧
    moveInstr.noredirect = true ∧ moveInstr.new_cats = [⟨"New"⟩] ∧
    run_events wFresh (cfdw_parse wFresh moveSecs) =
      [Event.moveCat ⟨"Old"⟩ ⟨"New"⟩ true
        "[[Wikipedia:Categories for discussion/Log/2024 January 1#Old]]",
       Event.removeCfd "Category:New" "Category moved",
       Event.runBot ⟨"Old"⟩ [⟨"New"⟩] moveSummary] :=
  move_scenario_renames_fresh_target wFresh rfl rfl rfl rfl rfl rfl

/-- The discussion-page title of the retain scenario. -/
def retainCfdT : String :=
  "Wikipedia:Categories for discussion/Log/2024 January 1#Foo"

/-- A retain working-page line whose trailing text is the given suffix. -/
def retainLine (sfx : String) : List LNode :=
  [.wikilink ":Category:Foo" none, .wikilink retainCfdT none, .text sfx]

/-- The one-section working page of the retain scenario. -/
def retainSecs (sfx : String) : List (String × List (List LNode)) :=
  [("Retain", [retainLine sfx])]

/-- The instruction a retain scenario line parses to, for the given
result and action. -/
def retainInstr (res act : String) : Instruction :=
  { mode := .retain, old_cat := ⟨"Foo"⟩, new_cats := [],
    cfd_page := retainCfdT, result := res, action := act }

/-- The retain edit summary for a result. -/
def retainSummary (res : String) : String :=
  "[[" ++ retainCfdT ++ "]] closed as " ++ res

/-- C5 counterexample: a retain suffix that contains the phrase
`no consensus to delete` but whose first pattern occurrence is
`no consensus for merging` parses to action merging, not delete — the
builder keeps only the first regex match. -/
theorem retain_first_match_counterexample :
    containsSub "no consensus for merging and no consensus to delete"
      "no consensus to delete" = true ∧
    cfdw_parse wBenign
        (retainSecs "no consensus for merging and no consensus to delete") =
      [retainInstr "no consensus" "merging"] ∧
    ("merging" : String) ≠ "delete" := by
  decide

/-- C5 (amended): for a retain line whose trimmed suffix has the literal
`no consensus to delete` as its FIRST `no consensus for/to <word>`
occurrence, the built instruction has result `no consensus` and action
`delete`, and executing it touches no member page: its only actions are
the CFD-template removal edit on the category page and, at most, the
archive-note save on its talk page. -/
theorem retain_no_consensus_delete_only_archives (w : World) (sfx : String)
    (h1 : ncFind (sTrim sfx) = some ("no consensus", "delete")) :
    cfdw_parse w (retainSecs sfx) = [retainInstr "no consensus" "delete"] ∧
    (do_instruction w (retainInstr "no consensus" "delete") =
        [Event.removeCfd "Category:Foo" (retainSummary "no consensus")] ∨
      do_instruction w (retainInstr "no consensus" "delete") =
        [Event.removeCfd "Category:Foo" (retainSummary "no consensus"),
         Event.savePage "Category talk:Foo"
           (retainSummary "no consensus")]) := by
  have hra : retainFields w retainCfdT ⟨"Foo"⟩ (sTrim sfx) =
      ("no consensus", "delete") := by
    unfold retainFields
    rw [h1]
  constructor
  · show [({ mode := .retain, old_cat := ⟨"Foo"⟩, new_cats := [],
             cfd_page := retainCfdT,
             result := (retainFields w retainCfdT ⟨"Foo"⟩
               (if (sTrim sfx != "") = true then sTrim sfx
                else sTrim sfx)).1,
             action := (retainFields w retainCfdT ⟨"Foo"⟩
               (if (sTrim sfx != "") = true then sTrim sfx
                else sTrim sfx)).2 } :
        Instruction)] = [retainInstr "no consensus" "delete"]
    simp only [ite_self]
    rw [hra]
    rfl
  · by_cases hs : (add_old_cfd (w.talkState "Category talk:Foo") retainCfdT
        "delete" "no consensus").2 = true
    · refine Or.inr ?_
      show Event.removeCfd "Category:Foo" (retainSummary "no consensus") ::
        (if (add_old_cfd (w.talkState "Category talk:Foo") retainCfdT
            "delete" "no consensus").2 = true then
          [Event.savePage "Category talk:Foo" (retainSummary "no consensus")]
        else []) = _
      rw [if_pos hs]
    · refine Or.inl ?_
      show Event.removeCfd "Category:Foo" (retainSummary "no consensus") ::
        (if (add_old_cfd (w.talkState "Category talk:Foo") retainCfdT
            "delete" "no consensus").2 = true then
          [Event.savePage "Category talk:Foo" (retainSummary "no consensus")]
        else []) = _
      rw [if_neg hs]

/-- Witness for C5 at the literal suffix and a concrete world with an
empty talk page (the note is saved). -/
theorem retain_no_consensus_delete_only_archives_witness :
    cfdw_parse wBenign (retainSecs "no consensus to delete") =
      [retainInstr "no consensus" "delete"] ∧
    (do_instruction wBenign (retainInstr "no consensus" "delete") =
        [Event.removeCfd "Category:Foo" (retainSummary "no consensus")] ∨
      do_instruction wBenign (retainInstr "no consensus" "delete") =
        [Event.removeCfd "Category:Foo" (retainSummary "no consensus"),
         Event.savePage "Category talk:Foo"
           (retainSummary "no consensus")]) :=
  retain_no_consensus_delete_only_archives wBenign "no consensus to delete"
    (by decide)

end Cfdw
